import Mathlib

/-!
Shallow embedding of `prefect_flows/pipeline.py` from the
`llm-data-quality-pipeline` repository.

A `Record` is one JSON message from the queue; every logical field may be
missing (`Option`), matching `consume_batch`, which defaults absent columns
to null.  `validate_df`, `write_bronze`, `write_outputs`, `append_manifest`
and the `dq_run` flow are translated function-by-function; the filesystem
(bronze/silver/rejects/gold partitions and the manifest log) is modelled as
an explicit `DataStore` value threaded through the run, with partition
directories as key/value entries (the design assumes distinct `run_ts` per
run, as stated in the spec's concurrency section).  The two pluggable
detectors (`langdetect.detect`, which may raise, and
`better_profanity.contains_profanity`) are parameters `detect : String →
Except Unit String` and `prof : String → Bool`.
-/

namespace DQPipeline

/-- One ingested record (one decoded JSON message).  Missing fields are
`none`, matching the `df[col] = None` defaulting in `consume_batch`. -/
structure Record where
  id : Option String
  ts : Option String
  text : Option String
  source : Option String
  domain : Option String
  category : Option String
deriving DecidableEq, Inhabited

/-- A record as it appears after `validate_df`'s preprocessing
(`text` has been `astype(str)`-cast and stripped, `text_len` derived);
these are the columns kept by `keep_cols`. -/
structure VRecord where
  id : Option String
  ts : Option String
  text : String
  source : Option String
  domain : Option String
  category : Option String
  text_len : Nat
deriving DecidableEq, Inhabited

/-- A failed record: the `keep_cols` plus the `failure_reason` column
(a comma-joined string of reason codes, as built in `validate_df`). -/
structure FRecord extends VRecord where
  failure_reason : String
deriving DecidableEq, Inhabited

/-- Python `str(x)` on an optional string cell: `None` prints as `"None"`. -/
def pyStr : Option String → String
  | Option.none => "None"
  | Option.some s => s

/-- Python `str.strip()`: removes whitespace from both ends of the string
(stated over the character list of the string). -/
def pyStrip (s : String) : String :=
  String.mk
    (((s.data.dropWhile Char.isWhitespace).reverse.dropWhile
        Char.isWhitespace).reverse)

/-- The per-row effect of `df.assign(text=df["text"].astype(str).str.strip())`
followed by `df["text_len"] = df["text"].str.len()`. -/
def prepRow (r : Record) : VRecord :=
  let t := pyStrip (pyStr r.text)
  { id := r.id, ts := r.ts, text := t, source := r.source,
    domain := r.domain, category := r.category, text_len := t.length }

/-- `df["text_len"].between(20, 4000)` (pandas `between` is inclusive). -/
def len_ok (n : Nat) : Bool := 20 ≤ n && n ≤ 4000

/-- `_is_en`: wraps the language detector, mapping any detector exception to
`False`.  `detect` returns `Except.error ()` where `langdetect.detect`
would raise. -/
def is_en (detect : String → Except Unit String) (s : String) : Bool :=
  match detect s with
  | Except.ok lang => lang == "en"
  | Except.error _ => false

/-- The deduplication key: `subset=["source","text"]` of
`df.duplicated(subset=["source","text"], keep='first')`. -/
def dupKey (r : VRecord) : Option String × String := (r.source, r.text)

/-- Helper for `dup_ok`: walks the batch in order keeping the set of keys
seen so far; a row's flag is `true` iff its key has not appeared before
(pandas `~duplicated(..., keep='first')`). -/
def dupOkAux (seen : List (Option String × String)) : List VRecord → List Bool
  | [] => []
  | r :: rs =>
    (if dupKey r ∈ seen then false else true) :: dupOkAux (dupKey r :: seen) rs

/-- `dup_ok = ~df.duplicated(subset=["source","text"], keep='first')`. -/
def dupOkList (rows : List VRecord) : List Bool := dupOkAux [] rows

/-- `ok = len_ok & lang_ok & ~prof & dup_ok` for one row (`dup_ok` is the
row's flag from `dupOkList`). -/
def rowOk (detect : String → Except Unit String) (prof : String → Bool)
    (dup_ok : Bool) (r : VRecord) : Bool :=
  len_ok r.text_len && is_en detect r.text && !prof r.text && dup_ok

/-- The reason list built for one failed row: the four independent checks,
in the order the code appends them (`length`, `language`, `profanity`,
`duplicate`). -/
def reasonList (detect : String → Except Unit String) (prof : String → Bool)
    (dup_ok : Bool) (r : VRecord) : List String :=
  (if !len_ok r.text_len then ["length"] else []) ++
  (if !is_en detect r.text then ["language"] else []) ++
  (if prof r.text then ["profanity"] else []) ++
  (if !dup_ok then ["duplicate"] else [])

/-- `",".join(r) if r else "unknown"`. -/
def failureReason (detect : String → Except Unit String) (prof : String → Bool)
    (dup_ok : Bool) (r : VRecord) : String :=
  let rs := reasonList detect prof dup_ok r
  if rs.isEmpty then "unknown" else String.intercalate "," rs

/-- The rows of the batch paired with their `dup_ok` flags. -/
def taggedRows (df : List Record) : List (VRecord × Bool) :=
  let rows := df.map prepRow
  rows.zip (dupOkList rows)

/-- Builds the failed-output record for one tagged row. -/
def mkFailed (detect : String → Except Unit String) (prof : String → Bool)
    (rd : VRecord × Bool) : FRecord :=
  { toVRecord := rd.1, failure_reason := failureReason detect prof rd.2 rd.1 }

/-- `validate_df`: classifies each row of the batch; returns
`(passed, failed)`.  The empty branch mirrors the early return for an
empty dataframe. -/
def validate_df (detect : String → Except Unit String) (prof : String → Bool)
    (df : List Record) : List VRecord × List FRecord :=
  if df.isEmpty then ([], [])
  else
    let tagged := taggedRows df
    let passed := (tagged.filter (fun rd => rowOk detect prof rd.2 rd.1)).map Prod.fst
    let failed := (tagged.filter (fun rd => !rowOk detect prof rd.2 rd.1)).map
      (mkFailed detect prof)
    (passed, failed)

/-! ### Batch intake (`consume_batch`) -/

/-- One result of `c.poll(0.2)` inside the intake loop.
`none_or_error` covers `msg is None or msg.error()` (skipped by the code);
`msg p` is a delivered message whose payload decodes to `p`
(`p = none` models a payload on which `json.loads`/`decode` raises). -/
inductive PollResult
  | none_or_error
  | msg (payload : Option Record)
deriving DecidableEq, Inhabited

/-- `consume_batch`: drains the poll stream (the finite sequence of poll
results arriving within the timeout window) until `max_msgs` rows are
accumulated or the stream ends.  `json.loads` on an undecodable payload
raises, which aborts the task: modelled as `Except.error ()`.  Missing
JSON fields are already `none` in `Record`, matching the `df[col] = None`
column defaulting. -/
def consume_batch (max_msgs : Nat) : List PollResult → List Record →
    Except Unit (List Record)
  | [], acc => Except.ok acc.reverse
  | p :: ps, acc =>
    if max_msgs ≤ acc.length then Except.ok acc.reverse
    else
      match p with
      | PollResult.none_or_error => consume_batch max_msgs ps acc
      | PollResult.msg Option.none => Except.error ()
      | PollResult.msg (Option.some r) => consume_batch max_msgs ps (r :: acc)

/-! ### Filesystem model and the writer tasks -/

/-- Contents of one `run_ts=`/`ds=` partition directory: either the `EMPTY`
sentinel file or a parquet file holding rows. -/
inductive PartitionContent (α : Type)
  | empty_marker
  | data (rows : List α)
deriving DecidableEq, Inhabited

/-- Replace-or-insert into a key/value store (writing a file at a path). -/
def storePut {α : Type} (k : String) (v : α) (m : List (String × α)) :
    List (String × α) :=
  (k, v) :: m.filter (fun e => !(e.1 == k))

/-- Read back the value at a key (reading the file at a path). -/
def storeGet {α : Type} (k : String) (m : List (String × α)) : Option α :=
  (m.find? (fun e => e.1 == k)).map Prod.snd

/-- The filesystem state the pipeline writes to: `bronze`, `silver` and
`rejects` keyed by `run_ts`, `gold` keyed by the UTC date `ds`, and the
append-only `manifests/versions.jsonl`. -/
structure ManifestEntry where
  run_ts : String
  in_ : Nat
  passed : Nat
  rejected : Nat
  reasons : List (String × Nat)
  bronze_path : String
  silver_path : String
  rejects_path : String
  gold_path : String
deriving DecidableEq, Inhabited

structure DataStore where
  bronze : List (String × PartitionContent Record)
  silver : List (String × PartitionContent VRecord)
  rejects : List (String × PartitionContent FRecord)
  gold : List (String × List VRecord)
  manifest : List ManifestEntry
deriving DecidableEq, Inhabited

def emptyStore : DataStore :=
  { bronze := [], silver := [], rejects := [], gold := [], manifest := [] }

/-- `write_bronze`: persists the batch as ingested under `run_ts`, or
touches `EMPTY` when the batch is empty; returns the partition path. -/
def write_bronze (df : List Record) (run_ts : String) (st : DataStore) :
    DataStore × String :=
  let content := if df.isEmpty then PartitionContent.empty_marker
                 else PartitionContent.data df
  ({ st with bronze := storePut run_ts content st.bronze },
   "data/bronze/run_ts=" ++ run_ts)

/-- The info dict returned by `write_outputs`. -/
structure OutInfo where
  run_ts : String
  silver_path : String
  rejects_path : String
  gold_path : String
  passed : Nat
  rejected : Nat
deriving DecidableEq, Inhabited

/-- `write_outputs`: writes `passed` to `silver/run_ts=T` (or `EMPTY`),
`failed` to `rejects/run_ts=T` (or `EMPTY`), and — only when
`silver/good.parquet` was written, i.e. `passed` is non-empty — copies it
to `gold/ds=D/gold.parquet`, overwriting any file already at that path.
`ds` is the current UTC date.  (Distinct runs are assumed to have distinct
`run_ts`, per the spec's concurrency section.) -/
def write_outputs (passed : List VRecord) (failed : List FRecord)
    (run_ts ds : String) (st : DataStore) : DataStore × OutInfo :=
  let silverContent := if passed.isEmpty then PartitionContent.empty_marker
                       else PartitionContent.data passed
  let rejectsContent := if failed.isEmpty then PartitionContent.empty_marker
                        else PartitionContent.data failed
  let st1 := { st with silver := storePut run_ts silverContent st.silver,
                       rejects := storePut run_ts rejectsContent st.rejects }
  let st2 := if passed.isEmpty then st1
             else { st1 with gold := storePut ds passed st1.gold }
  (st2,
   { run_ts := run_ts,
     silver_path := "data/silver/run_ts=" ++ run_ts,
     rejects_path := "data/rejects/run_ts=" ++ run_ts,
     gold_path := "data/gold/ds=" ++ ds,
     passed := passed.length,
     rejected := failed.length })

/-! ### Manifest (`append_manifest`) -/

/-- Helper for `firstSeen`: `seen` holds the values already emitted. -/
def firstSeenAux (seen : List String) : List String → List String
  | [] => []
  | s :: rest =>
    if s ∈ seen then firstSeenAux seen rest
    else s :: firstSeenAux (s :: seen) rest

/-- Distinct elements of a list, first occurrence first (the keys of a
pandas `value_counts`). -/
def firstSeen (l : List String) : List String := firstSeenAux [] l

/-- `Series.value_counts().to_dict()`: each distinct value mapped to its
number of occurrences.  (pandas orders the dict by descending count; the
claims only concern the mapping's content, so first-seen order is used.) -/
def value_counts (l : List String) : List (String × Nat) :=
  (firstSeen l).map (fun s => (s, l.count s))

/-- Lookup in the reasons mapping, 0 when the key is absent. -/
def countOf : List (String × Nat) → String → Nat
  | [], _ => 0
  | (s, n) :: rest, a => if a = s then n else countOf rest a

/-- `append_manifest`: builds the run's manifest entry (note `in` is
computed as `passed + rejected`, and `reasons` is
`failed["failure_reason"].value_counts().to_dict()`) and appends it to
`manifests/versions.jsonl`. -/
def append_manifest (info : OutInfo) (failed : List FRecord)
    (bronze_path : String) (st : DataStore) : DataStore × ManifestEntry :=
  let reasons := if failed.isEmpty then []
                 else value_counts (failed.map (fun f => f.failure_reason))
  let entry : ManifestEntry :=
    { run_ts := info.run_ts,
      in_ := info.passed + info.rejected,
      passed := info.passed,
      rejected := info.rejected,
      reasons := reasons,
      bronze_path := bronze_path,
      silver_path := info.silver_path,
      rejects_path := info.rejects_path,
      gold_path := info.gold_path }
  ({ st with manifest := st.manifest ++ [entry] }, entry)

/-- The `dq_run` flow: one run with identifier `run_ts` (wall-clock
derived, abstracted as a parameter) and current UTC date `ds`, fed by the
poll stream `polls`.  A stage failure aborts the run. -/
def dq_run (detect : String → Except Unit String) (prof : String → Bool)
    (polls : List PollResult) (run_ts ds : String) (st : DataStore) :
    Except Unit (DataStore × ManifestEntry) :=
  match consume_batch 1500 polls [] with
  | Except.error e => Except.error e
  | Except.ok df =>
    let b := write_bronze df run_ts st
    let pf := validate_df detect prof df
    let w := write_outputs pf.1 pf.2 run_ts ds b.1
    Except.ok (append_manifest w.2 pf.2 b.2 w.1)

/-! ### Per-index views of the classification -/

/-- The `i`-th preprocessed row of the batch. -/
def rowAt (df : List Record) (i : Nat) : VRecord :=
  (df.map prepRow).getD i default

/-- The `i`-th `dup_ok` flag. -/
def dupFlagAt (df : List Record) (i : Nat) : Bool :=
  (dupOkList (df.map prepRow)).getD i true

/-- The `i`-th row's overall `ok` bit. -/
def okAt (detect : String → Except Unit String) (prof : String → Bool)
    (df : List Record) (i : Nat) : Bool :=
  rowOk detect prof (dupFlagAt df i) (rowAt df i)

/-- The `i`-th row's reason list. -/
def reasonsAt (detect : String → Except Unit String) (prof : String → Bool)
    (df : List Record) (i : Nat) : List String :=
  reasonList detect prof (dupFlagAt df i) (rowAt df i)

/-- The failed-output record the `i`-th row would produce. -/
def failedEntryAt (detect : String → Except Unit String) (prof : String → Bool)
    (df : List Record) (i : Nat) : FRecord :=
  mkFailed detect prof (rowAt df i, dupFlagAt df i)

/-! ### Concrete detector stubs and sample records -/

/-- Language-detector stub that classifies every text as English. -/
def detectEn : String → Except Unit String := fun _ => Except.ok "en"

/-- Language-detector stub that always raises (ambiguous text / detector
error), as `langdetect.detect` does on undetectable input. -/
def detectErr : String → Except Unit String := fun _ => Except.error ()

/-- Profanity-detector stub that flags nothing. -/
def profNone : String → Bool := fun _ => false

/-- A record whose text is shorter than 20 characters. -/
def recShort : Record :=
  { id := Option.some "r1", ts := Option.some "2025-01-01T00:00:00",
    text := Option.some "short", source := Option.some "web",
    domain := Option.some "news", category := Option.some "ai" }

/-- A clean record with text in the accepted length band. -/
def recGood : Record :=
  { id := Option.some "r2", ts := Option.some "2025-01-01T00:00:01",
    text := Option.some "a perfectly valid english sentence",
    source := Option.some "web", domain := Option.some "news",
    category := Option.some "ai" }

/-- Same `(source, text)` as `recGood` but a different id: a batch
duplicate. -/
def recGoodDup : Record := { recGood with id := Option.some "r3" }

/-- A record with every field null (fully defaulted input shape). -/
def recNull : Record :=
  { id := Option.none, ts := Option.none, text := Option.none,
    source := Option.none, domain := Option.none, category := Option.none }

/-- A valid record whose text carries surrounding whitespace. -/
def recPadded : Record :=
  { id := Option.some "r4", ts := Option.some "2025-01-01T00:00:01",
    text := Option.some "  a perfectly valid english sentence  ",
    source := Option.some "web", domain := Option.some "news",
    category := Option.some "ai" }

/-! ### Helper lemmas -/

theorem length_dupOkAux (seen : List (Option String × String))
    (rows : List VRecord) : (dupOkAux seen rows).length = rows.length := by
  induction rows generalizing seen with
  | nil => rfl
  | cons r rs ih => simp [dupOkAux, ih]

theorem length_dupOkList (rows : List VRecord) :
    (dupOkList rows).length = rows.length := length_dupOkAux [] rows

theorem length_taggedRows (df : List Record) :
    (taggedRows df).length = df.length := by
  simp [taggedRows, List.length_zip, length_dupOkList]

theorem map_fst_taggedRows (df : List Record) :
    (taggedRows df).map Prod.fst = df.map prepRow := by
  apply List.map_fst_zip
  simp [length_dupOkList]

theorem isEmpty_false_of_lt {df : List Record} {i : Nat}
    (hi : i < df.length) : df.isEmpty = false := by
  cases df
  · simp at hi
  · rfl

theorem validate_df_perm (detect : String → Except Unit String)
    (prof : String → Bool) (df : List Record) :
    ((validate_df detect prof df).1 ++
      (validate_df detect prof df).2.map FRecord.toVRecord).Perm
      (df.map prepRow) := by
  by_cases h : df = []
  · subst h; simp [validate_df]
  · have hne : df.isEmpty = false := by
      cases df
      · exact absurd rfl h
      · rfl
    simp only [validate_df, hne, Bool.false_eq_true, if_false]
    rw [List.map_map]
    have hmk : (FRecord.toVRecord ∘ mkFailed detect prof) = Prod.fst := by
      funext rd; rfl
    rw [hmk, ← List.map_append, ← map_fst_taggedRows df]
    exact (List.filter_append_perm _ (taggedRows df)).map Prod.fst

theorem validate_df_length (detect : String → Except Unit String)
    (prof : String → Bool) (df : List Record) :
    (validate_df detect prof df).1.length +
      (validate_df detect prof df).2.length = df.length := by
  have h := (validate_df_perm detect prof df).length_eq
  simpa using h

theorem reasonList_eq_nil_iff (detect : String → Except Unit String)
    (prof : String → Bool) (dup_ok : Bool) (r : VRecord) :
    reasonList detect prof dup_ok r = [] ↔
      rowOk detect prof dup_ok r = true := by
  cases h1 : len_ok r.text_len <;> cases h2 : is_en detect r.text <;>
    cases h3 : prof r.text <;> cases dup_ok <;>
      simp [reasonList, rowOk, h1, h2, h3]

theorem reasonList_subset (detect : String → Except Unit String)
    (prof : String → Bool) (dup_ok : Bool) (r : VRecord) :
    ∀ x ∈ reasonList detect prof dup_ok r,
      x ∈ ["length", "language", "profanity", "duplicate"] := by
  intro x hx
  cases h1 : len_ok r.text_len <;> cases h2 : is_en detect r.text <;>
    cases h3 : prof r.text <;> cases dup_ok <;>
      simp [reasonList, h1, h2, h3] at hx ⊢ <;> tauto

theorem failureReason_spec (detect : String → Except Unit String)
    (prof : String → Bool) (dup_ok : Bool) (r : VRecord)
    (h : rowOk detect prof dup_ok r = false) :
    reasonList detect prof dup_ok r ≠ [] ∧
    failureReason detect prof dup_ok r =
      String.intercalate "," (reasonList detect prof dup_ok r) ∧
    failureReason detect prof dup_ok r ≠ "unknown" := by
  have hne : reasonList detect prof dup_ok r ≠ [] := by
    intro hnil
    rw [reasonList_eq_nil_iff] at hnil
    rw [hnil] at h
    exact Bool.noConfusion h
  refine ⟨hne, ?_, ?_⟩
  · simp [failureReason, List.isEmpty_iff, hne]
  · cases h1 : len_ok r.text_len <;> cases h2 : is_en detect r.text <;>
      cases h3 : prof r.text <;> cases dup_ok <;>
        first
          | (simp [rowOk, h1, h2, h3] at h; done)
          | (simp [failureReason, reasonList, h1, h2, h3]; decide)

theorem dupOkAux_getD_false (rows : List VRecord) :
    ∀ (seen : List (Option String × String)) (i : Nat), i < rows.length →
      (dupKey (rows.getD i default) ∈ seen ∨
        ∃ j, j < i ∧ dupKey (rows.getD j default) = dupKey (rows.getD i default)) →
      (dupOkAux seen rows).getD i true = false := by
  induction rows with
  | nil => intro seen i hi; simp at hi
  | cons r rs ih =>
    intro seen i hi h
    cases i with
    | zero =>
      have hseen : dupKey r ∈ seen := by
        rcases h with h | ⟨j, hj, _⟩
        · simpa using h
        · omega
      simp [dupOkAux, hseen]
    | succ i =>
      have hi' : i < rs.length := by simpa using hi
      have h' : dupKey (rs.getD i default) ∈ dupKey r :: seen ∨
          ∃ j, j < i ∧ dupKey (rs.getD j default) = dupKey (rs.getD i default) := by
        rcases h with h | ⟨j, hj, hkey⟩
        · exact Or.inl (List.mem_cons_of_mem _ (by simpa using h))
        · cases j with
          | zero =>
            simp only [List.getD_cons_zero, List.getD_cons_succ] at hkey
            exact Or.inl (by rw [← hkey]; exact List.mem_cons_self _ _)
          | succ j =>
            simp only [List.getD_cons_succ] at hkey
            exact Or.inr ⟨j, by omega, hkey⟩
      simp only [dupOkAux, List.getD_cons_succ]
      exact ih (dupKey r :: seen) i hi' h'

theorem dupOkAux_getD_true (rows : List VRecord) :
    ∀ (seen : List (Option String × String)) (i : Nat), i < rows.length →
      dupKey (rows.getD i default) ∉ seen →
      (∀ j, j < i → dupKey (rows.getD j default) ≠ dupKey (rows.getD i default)) →
      (dupOkAux seen rows).getD i true = true := by
  induction rows with
  | nil => intro seen i hi; simp at hi
  | cons r rs ih =>
    intro seen i hi hseen hfirst
    cases i with
    | zero => simp only [List.getD_cons_zero] at hseen; simp [dupOkAux, hseen]
    | succ i =>
      have hi' : i < rs.length := by simpa using hi
      simp only [List.getD_cons_succ] at hseen ⊢
      simp only [dupOkAux, List.getD_cons_succ]
      apply ih (dupKey r :: seen) i hi'
      · intro hmem
        rcases List.mem_cons.mp hmem with hmem | hmem
        · exact hfirst 0 (Nat.succ_pos i) (by simpa using hmem.symm)
        · exact hseen hmem
      · intro j hj
        have := hfirst (j + 1) (by omega)
        simpa using this

theorem dupFlagAt_false (df : List Record) (i j : Nat) (hij : i < j)
    (hj : j < df.length)
    (hkey : dupKey (rowAt df i) = dupKey (rowAt df j)) :
    dupFlagAt df j = false := by
  have hj' : j < (df.map prepRow).length := by simpa using hj
  exact dupOkAux_getD_false (df.map prepRow) [] j hj'
    (Or.inr ⟨i, hij, hkey⟩)

theorem dupFlagAt_true (df : List Record) (i : Nat) (hi : i < df.length)
    (hfirst : ∀ k, k < i → dupKey (rowAt df k) ≠ dupKey (rowAt df i)) :
    dupFlagAt df i = true := by
  have hi' : i < (df.map prepRow).length := by simpa using hi
  exact dupOkAux_getD_true (df.map prepRow) [] i hi' (by simp) hfirst

theorem taggedRows_getD (df : List Record) (i : Nat) (hi : i < df.length) :
    (taggedRows df).getD i (default, true) = (rowAt df i, dupFlagAt df i) := by
  have h1 : i < (df.map prepRow).length := by simpa using hi
  have h2 : i < (dupOkList (df.map prepRow)).length := by
    rw [length_dupOkList]; exact h1
  have hz : i < (taggedRows df).length := by rw [length_taggedRows]; exact hi
  rw [List.getD_eq_getElem _ _ hz, rowAt, dupFlagAt,
    List.getD_eq_getElem _ _ h1, List.getD_eq_getElem _ _ h2]
  simp only [taggedRows]
  exact List.getElem_zip

theorem mem_taggedRows (df : List Record) (i : Nat) (hi : i < df.length) :
    (rowAt df i, dupFlagAt df i) ∈ taggedRows df := by
  have hz : i < (taggedRows df).length := by rw [length_taggedRows]; exact hi
  have h := taggedRows_getD df i hi
  rw [List.getD_eq_getElem _ _ hz] at h
  rw [← h]
  exact List.getElem_mem hz

theorem mem_failed_of_okAt_false (detect : String → Except Unit String)
    (prof : String → Bool) (df : List Record) (i : Nat)
    (hi : i < df.length) (h : okAt detect prof df i = false) :
    failedEntryAt detect prof df i ∈ (validate_df detect prof df).2 := by
  have hne : df.isEmpty = false := isEmpty_false_of_lt hi
  simp only [validate_df, hne, Bool.false_eq_true, if_false]
  apply List.mem_map.mpr
  refine ⟨(rowAt df i, dupFlagAt df i), ?_, rfl⟩
  apply List.mem_filter.mpr
  refine ⟨mem_taggedRows df i hi, ?_⟩
  rw [okAt] at h
  simp [h]

theorem mem_passed_of_okAt_true (detect : String → Except Unit String)
    (prof : String → Bool) (df : List Record) (i : Nat)
    (hi : i < df.length) (h : okAt detect prof df i = true) :
    rowAt df i ∈ (validate_df detect prof df).1 := by
  have hne : df.isEmpty = false := isEmpty_false_of_lt hi
  simp only [validate_df, hne, Bool.false_eq_true, if_false]
  apply List.mem_map.mpr
  refine ⟨(rowAt df i, dupFlagAt df i), ?_, rfl⟩
  apply List.mem_filter.mpr
  refine ⟨mem_taggedRows df i hi, ?_⟩
  rw [okAt] at h
  simpa using h

theorem duplicate_mem_reasonList (detect : String → Except Unit String)
    (prof : String → Bool) (r : VRecord) :
    "duplicate" ∈ reasonList detect prof false r := by
  simp [reasonList]

theorem rowOk_false_of_dup (detect : String → Except Unit String)
    (prof : String → Bool) (r : VRecord) :
    rowOk detect prof false r = false := by
  simp [rowOk]

theorem len_ok_eq_false {n : Nat} (h : n < 20 ∨ 4000 < n) :
    len_ok n = false := by
  rcases h with h | h <;> simp [len_ok] <;> omega

theorem length_mem_reasonList (detect : String → Except Unit String)
    (prof : String → Bool) (dup_ok : Bool) (r : VRecord)
    (h : len_ok r.text_len = false) :
    "length" ∈ reasonList detect prof dup_ok r := by
  simp [reasonList, h]

theorem rowOk_false_of_len (detect : String → Except Unit String)
    (prof : String → Bool) (dup_ok : Bool) (r : VRecord)
    (h : len_ok r.text_len = false) :
    rowOk detect prof dup_ok r = false := by
  simp [rowOk, h]

theorem is_en_error (detect : String → Except Unit String) (s : String)
    (h : detect s = Except.error ()) : is_en detect s = false := by
  simp [is_en, h]

theorem language_mem_reasonList (detect : String → Except Unit String)
    (prof : String → Bool) (dup_ok : Bool) (r : VRecord)
    (h : is_en detect r.text = false) :
    "language" ∈ reasonList detect prof dup_ok r := by
  simp [reasonList, h]

theorem rowOk_false_of_lang (detect : String → Except Unit String)
    (prof : String → Bool) (dup_ok : Bool) (r : VRecord)
    (h : is_en detect r.text = false) :
    rowOk detect prof dup_ok r = false := by
  simp [rowOk, h]

theorem mem_firstSeenAux (a : String) (l : List String) :
    ∀ seen, (a ∈ firstSeenAux seen l ↔ a ∈ l ∧ a ∉ seen) := by
  induction l with
  | nil => intro seen; simp [firstSeenAux]
  | cons s rest ih =>
    intro seen
    by_cases hs : s ∈ seen
    · rw [firstSeenAux, if_pos hs, ih]
      constructor
      · exact fun ⟨h1, h2⟩ => ⟨List.mem_cons_of_mem _ h1, h2⟩
      · rintro ⟨h1, h2⟩
        rcases List.mem_cons.mp h1 with rfl | h1
        · exact absurd hs h2
        · exact ⟨h1, h2⟩
    · rw [firstSeenAux, if_neg hs]
      constructor
      · intro h1
        rcases List.mem_cons.mp h1 with rfl | h1
        · exact ⟨List.mem_cons_self _ _, hs⟩
        · rcases (ih (s :: seen)).mp h1 with ⟨hm, hns⟩
          exact ⟨List.mem_cons_of_mem _ hm,
            fun hmem => hns (List.mem_cons_of_mem _ hmem)⟩
      · rintro ⟨h1, h2⟩
        by_cases has : a = s
        · exact has ▸ List.mem_cons_self _ _
        · rcases List.mem_cons.mp h1 with rfl | h1
          · exact absurd rfl has
          · exact List.mem_cons_of_mem _
              ((ih (s :: seen)).mpr ⟨h1, by
                intro hmem
                rcases List.mem_cons.mp hmem with rfl | hmem
                · exact has rfl
                · exact h2 hmem⟩)

theorem mem_firstSeen (a : String) (l : List String) :
    a ∈ firstSeen l ↔ a ∈ l := by
  rw [firstSeen, mem_firstSeenAux]
  simp

theorem countOf_map_keys (f : String → Nat) (keys : List String) (a : String) :
    countOf (keys.map (fun s => (s, f s))) a = if a ∈ keys then f a else 0 := by
  induction keys with
  | nil => simp [countOf]
  | cons k ks ih =>
    by_cases h : a = k
    · subst h; simp [countOf]
    · simp [countOf, h, ih, List.mem_cons]

theorem countOf_value_counts (l : List String) (a : String) :
    countOf (value_counts l) a = l.count a := by
  rw [value_counts, countOf_map_keys]
  by_cases h : a ∈ firstSeen l
  · rw [if_pos h]
  · rw [if_neg h]
    have hnl : a ∉ l := fun hl => h ((mem_firstSeen a l).mpr hl)
    exact (List.count_eq_zero.mpr hnl).symm

theorem storeGet_storePut {α : Type} (k : String) (v : α)
    (m : List (String × α)) : storeGet k (storePut k v m) = some v := by
  simp [storeGet, storePut, List.find?_cons_of_pos]

/-! ### The claims -/

/-- C1: for every input batch, `validate_df` returns `(passed, failed)`
such that every (preprocessed) input record appears in exactly one of the
two outputs — none dropped, none duplicated (a permutation of the batch),
with matching lengths — and the run's manifest entry satisfies
`passed + rejected = in` with `passed`/`rejected` the actual output
counts. -/
theorem claim_C1 (detect : String → Except Unit String) (prof : String → Bool)
    (df : List Record) (run_ts ds bronze_path : String) (st : DataStore) :
    ((validate_df detect prof df).1 ++
      (validate_df detect prof df).2.map FRecord.toVRecord).Perm
      (df.map prepRow)
    ∧ (validate_df detect prof df).1.length +
        (validate_df detect prof df).2.length = df.length
    ∧ (let pf := validate_df detect prof df
       let w := write_outputs pf.1 pf.2 run_ts ds st
       let entry := (append_manifest w.2 pf.2 bronze_path w.1).2
       entry.passed + entry.rejected = entry.in_ ∧
       entry.passed = pf.1.length ∧ entry.rejected = pf.2.length) := by
  refine ⟨validate_df_perm detect prof df, validate_df_length detect prof df,
    ?_, ?_, ?_⟩ <;> rfl

/-- C2: every record in the failed output of `validate_df` carries a
non-empty reason list drawn from {length, language, profanity, duplicate};
the defensive fallback `"unknown"` is never produced. -/
theorem claim_C2 (detect : String → Except Unit String) (prof : String → Bool)
    (df : List Record) (fr : FRecord)
    (h : fr ∈ (validate_df detect prof df).2) :
    ∃ rs : List String, rs ≠ [] ∧
      (∀ x ∈ rs, x ∈ ["length", "language", "profanity", "duplicate"]) ∧
      fr.failure_reason = String.intercalate "," rs ∧
      fr.failure_reason ≠ "unknown" := by
  by_cases hemp : df.isEmpty = true
  · rw [validate_df, if_pos hemp] at h
    simp at h
  · rw [validate_df, if_neg hemp] at h
    rcases List.mem_map.mp h with ⟨rd, hrd, rfl⟩
    have hok : rowOk detect prof rd.2 rd.1 = false := by
      have := (List.mem_filter.mp hrd).2
      simpa using this
    obtain ⟨h1, h2, h3⟩ := failureReason_spec detect prof rd.2 rd.1 hok
    exact ⟨reasonList detect prof rd.2 rd.1, h1,
      reasonList_subset detect prof rd.2 rd.1, h2, h3⟩

/-- Witness for C2 at the concrete batch `[recShort]`. -/
theorem claim_C2_witness :
    ∃ rs : List String, rs ≠ [] ∧
      (∀ x ∈ rs, x ∈ ["length", "language", "profanity", "duplicate"]) ∧
      (mkFailed detectEn profNone (prepRow recShort, true)).failure_reason =
        String.intercalate "," rs ∧
      (mkFailed detectEn profNone (prepRow recShort, true)).failure_reason ≠
        "unknown" :=
  claim_C2 detectEn profNone [recShort]
    (mkFailed detectEn profNone (prepRow recShort, true)) (by decide)

/-- C4: in any batch, if records at positions `i < j` share the
`(source, text)` key and `i` is the first occurrence of that key, then
row `i` passes the duplicate rule while row `j` fails it, with
`duplicate` among row `j`'s reasons, and row `j` is classified failed. -/
theorem claim_C4 (detect : String → Except Unit String) (prof : String → Bool)
    (df : List Record) (i j : Nat) (hij : i < j) (hj : j < df.length)
    (hkey : dupKey (rowAt df i) = dupKey (rowAt df j))
    (hfirst : ∀ k, k < i → dupKey (rowAt df k) ≠ dupKey (rowAt df i)) :
    dupFlagAt df i = true ∧ dupFlagAt df j = false ∧
    "duplicate" ∈ reasonsAt detect prof df j ∧
    okAt detect prof df j = false ∧
    failedEntryAt detect prof df j ∈ (validate_df detect prof df).2 := by
  have hdup : dupFlagAt df j = false := dupFlagAt_false df i j hij hj hkey
  have hok : okAt detect prof df j = false := by
    rw [okAt, hdup]
    exact rowOk_false_of_dup detect prof (rowAt df j)
  refine ⟨dupFlagAt_true df i (Nat.lt_trans hij hj) hfirst, hdup, ?_, hok,
    mem_failed_of_okAt_false detect prof df j hj hok⟩
  rw [reasonsAt, hdup]
  exact duplicate_mem_reasonList detect prof (rowAt df j)

/-- Witness for C4 at the concrete batch `[recGood, recGoodDup]`. -/
theorem claim_C4_witness :
    dupFlagAt [recGood, recGoodDup] 0 = true ∧
    dupFlagAt [recGood, recGoodDup] 1 = false ∧
    "duplicate" ∈ reasonsAt detectEn profNone [recGood, recGoodDup] 1 ∧
    okAt detectEn profNone [recGood, recGoodDup] 1 = false ∧
    failedEntryAt detectEn profNone [recGood, recGoodDup] 1 ∈
      (validate_df detectEn profNone [recGood, recGoodDup]).2 :=
  claim_C4 detectEn profNone [recGood, recGoodDup] 0 1 (by decide) (by decide)
    (by decide) (fun k hk => absurd hk (Nat.not_lt_zero k))

/-- C10: any row whose derived `text_len` is below 20 or above 4000 gets
`length` among its reasons and is classified failed, for every language
and profanity detector and independently of the other rules. -/
theorem claim_C10 (detect : String → Except Unit String) (prof : String → Bool)
    (df : List Record) (i : Nat) (hi : i < df.length)
    (h : (rowAt df i).text_len < 20 ∨ 4000 < (rowAt df i).text_len) :
    "length" ∈ reasonsAt detect prof df i ∧
    okAt detect prof df i = false ∧
    failedEntryAt detect prof df i ∈ (validate_df detect prof df).2 := by
  have hlen : len_ok (rowAt df i).text_len = false := len_ok_eq_false h
  have hok : okAt detect prof df i = false :=
    rowOk_false_of_len detect prof (dupFlagAt df i) (rowAt df i) hlen
  exact ⟨length_mem_reasonList detect prof (dupFlagAt df i) (rowAt df i) hlen,
    hok, mem_failed_of_okAt_false detect prof df i hi hok⟩

/-- Witness for C10 at the concrete batch `[recShort]`. -/
theorem claim_C10_witness :
    "length" ∈ reasonsAt detectEn profNone [recShort] 0 ∧
    okAt detectEn profNone [recShort] 0 = false ∧
    failedEntryAt detectEn profNone [recShort] 0 ∈
      (validate_df detectEn profNone [recShort]).2 :=
  claim_C10 detectEn profNone [recShort] 0 (by decide) (Or.inl (by decide))

/-- C9: `validate_df` classifies every record of the batch (the two
outputs exhaust the batch; the embedding is a total function, so the
classification is deterministic and never an error, even on null/defaulted
fields), and a detector error on a record's text means the language rule
fails for it: it is classified failed with `language` among its
reasons — never a pipeline error. -/
theorem claim_C9 (detect : String → Except Unit String) (prof : String → Bool)
    (df : List Record) :
    ((validate_df detect prof df).1.length +
      (validate_df detect prof df).2.length = df.length)
    ∧ (∀ i, i < df.length → detect (rowAt df i).text = Except.error () →
        okAt detect prof df i = false ∧
        "language" ∈ reasonsAt detect prof df i ∧
        failedEntryAt detect prof df i ∈ (validate_df detect prof df).2) := by
  refine ⟨validate_df_length detect prof df, ?_⟩
  intro i hi herr
  have hlang : is_en detect (rowAt df i).text = false :=
    is_en_error detect (rowAt df i).text herr
  have hok : okAt detect prof df i = false :=
    rowOk_false_of_lang detect prof (dupFlagAt df i) (rowAt df i) hlang
  exact ⟨hok,
    language_mem_reasonList detect prof (dupFlagAt df i) (rowAt df i) hlang,
    mem_failed_of_okAt_false detect prof df i hi hok⟩

/-- Witness for C9: a fully-null record under an always-raising detector. -/
theorem claim_C9_witness :
    okAt detectErr profNone [recNull] 0 = false ∧
    "language" ∈ reasonsAt detectErr profNone [recNull] 0 ∧
    failedEntryAt detectErr profNone [recNull] 0 ∈
      (validate_df detectErr profNone [recNull]).2 :=
  (claim_C9 detectErr profNone [recNull]).2 0 (by decide) rfl

/-- C3 counterexample: a run whose single record violates both the length
and the language rule produces the manifest reasons mapping
`{"length,language": 1}` — keyed by the comma-joined combination, not by
individual reason codes: the record violated `length`, yet the mapping
has no `length` key. -/
theorem claim_C3_counterexample :
    (dq_run detectErr profNone [PollResult.msg (Option.some recShort)]
        "T" "D" emptyStore).toOption.map (fun x => x.2.reasons) =
      Option.some [("length,language", 1)]
    ∧ countOf [("length,language", 1)] "length" = 0
    ∧ "length" ∈ reasonsAt detectErr profNone [recShort] 0 :=
  ⟨by decide, by decide, by decide⟩

/-- C3 amended: the manifest entry's `reasons` field maps each distinct
`failure_reason` string — the comma-joined combination of the reason codes
a failed record violated — to the count of failed records of the run with
exactly that combination (so it agrees with per-code counts only when
every failed record violates a single rule). -/
theorem claim_C3_amended (info : OutInfo) (failed : List FRecord)
    (bronze_path : String) (st : DataStore) :
    ∀ s, countOf (append_manifest info failed bronze_path st).2.reasons s =
      (failed.map (fun f => f.failure_reason)).count s := by
  intro s
  by_cases h : failed.isEmpty = true
  · have hnil : failed = [] := by
      cases failed
      · rfl
      · simp at h
    subst hnil
    simp [append_manifest, countOf]
  · simp only [append_manifest, h, Bool.false_eq_true, if_false]
    exact countOf_value_counts _ s

/-- C5 counterexample: the pipeline does mutate a record beyond the
derived `text_len`: `validate_df` str-casts and whitespace-strips `text`,
so the record written to silver does not carry the ingested text value. -/
theorem claim_C5_counterexample :
    recPadded.text = Option.some "  a perfectly valid english sentence  "
    ∧ ((validate_df detectEn profNone [recPadded]).1.getD 0 default).text ≠
        "  a perfectly valid english sentence  " :=
  ⟨rfl, by decide⟩

/-- C5 amended: all fields other than the derived `text_len` and the
normalized `text` (str-cast then whitespace-stripped at validation time)
are unchanged from the ingested record, and the silver/rejects/gold
partitions read back exactly the records written to them. -/
theorem claim_C5_amended (detect : String → Except Unit String)
    (prof : String → Bool) (df : List Record) (i : Nat)
    (run_ts ds : String) (st : DataStore) (hi : i < df.length) :
    ((rowAt df i).id = (df.getD i default).id
      ∧ (rowAt df i).ts = (df.getD i default).ts
      ∧ (rowAt df i).source = (df.getD i default).source
      ∧ (rowAt df i).domain = (df.getD i default).domain
      ∧ (rowAt df i).category = (df.getD i default).category
      ∧ (rowAt df i).text = pyStrip (pyStr (df.getD i default).text))
    ∧ (let pf := validate_df detect prof df
       let w := write_outputs pf.1 pf.2 run_ts ds st
       storeGet run_ts w.1.silver = Option.some
          (if pf.1.isEmpty then PartitionContent.empty_marker
           else PartitionContent.data pf.1)
       ∧ storeGet run_ts w.1.rejects = Option.some
          (if pf.2.isEmpty then PartitionContent.empty_marker
           else PartitionContent.data pf.2)
       ∧ (pf.1 ≠ [] → storeGet ds w.1.gold = Option.some pf.1)) := by
  constructor
  · have hrow : rowAt df i = prepRow (df.getD i default) := by
      have h1 : i < (df.map prepRow).length := by simpa using hi
      rw [rowAt, List.getD_eq_getElem _ _ h1, List.getElem_map,
        List.getD_eq_getElem _ _ hi]
    rw [hrow]
    exact ⟨rfl, rfl, rfl, rfl, rfl, rfl⟩
  · refine ⟨?_, ?_, ?_⟩
    · simp only [write_outputs]
      split
      · exact storeGet_storePut _ _ _
      · exact storeGet_storePut _ _ _
    · simp only [write_outputs]
      split
      · exact storeGet_storePut _ _ _
      · exact storeGet_storePut _ _ _
    · intro hne
      have hne' : (validate_df detect prof df).1.isEmpty = false := by
        cases hval : (validate_df detect prof df).1
        · exact absurd hval hne
        · rfl
      simp only [write_outputs, hne', Bool.false_eq_true, if_false]
      exact storeGet_storePut _ _ _

/-- Witness for C5 (amended) at the batch `[recPadded]`. -/
theorem claim_C5_amended_witness :
    ((rowAt [recPadded] 0).id = ([recPadded].getD 0 default).id
      ∧ (rowAt [recPadded] 0).ts = ([recPadded].getD 0 default).ts
      ∧ (rowAt [recPadded] 0).source = ([recPadded].getD 0 default).source
      ∧ (rowAt [recPadded] 0).domain = ([recPadded].getD 0 default).domain
      ∧ (rowAt [recPadded] 0).category = ([recPadded].getD 0 default).category
      ∧ (rowAt [recPadded] 0).text =
          pyStrip (pyStr ([recPadded].getD 0 default).text))
    ∧ (let pf := validate_df detectEn profNone [recPadded]
       let w := write_outputs pf.1 pf.2 "T" "D" emptyStore
       storeGet "T" w.1.silver = Option.some
          (if pf.1.isEmpty then PartitionContent.empty_marker
           else PartitionContent.data pf.1)
       ∧ storeGet "T" w.1.rejects = Option.some
          (if pf.2.isEmpty then PartitionContent.empty_marker
           else PartitionContent.data pf.2)
       ∧ (pf.1 ≠ [] → storeGet "D" w.1.gold = Option.some pf.1)) :=
  claim_C5_amended detectEn profNone [recPadded] 0 "T" "D" emptyStore
    (by decide)

/-- C6 counterexample: a message whose payload fails to decode is not
silently skipped — `json.loads` raises inside `consume_batch`, aborting
the intake stage and the whole run. -/
theorem claim_C6_counterexample :
    consume_batch 1500 [PollResult.msg Option.none] [] = Except.error ()
    ∧ dq_run detectEn profNone [PollResult.msg Option.none] "T" "D"
        emptyStore = Except.error () :=
  ⟨rfl, rfl⟩

/-- C6 amended: poll results that arrive as `None` or error-flagged
messages are silently skipped — not counted toward the batch, not
retried — but a delivered message whose payload fails to decode raises
and aborts the intake stage. -/
theorem claim_C6_amended (max_msgs : Nat) (ps : List PollResult)
    (acc : List Record) :
    consume_batch max_msgs (PollResult.none_or_error :: ps) acc =
      consume_batch max_msgs ps acc
    ∧ (acc.length < max_msgs →
        consume_batch max_msgs (PollResult.msg Option.none :: ps) acc =
          Except.error ()) := by
  constructor
  · by_cases h : max_msgs ≤ acc.length
    · cases ps <;> simp [consume_batch, h]
    · simp [consume_batch, h]
  · intro hlt
    have h : ¬ max_msgs ≤ acc.length := by omega
    simp [consume_batch, h]

/-- Witness for C6 (amended) at `max_msgs = 1500` on singleton streams. -/
theorem claim_C6_amended_witness :
    consume_batch 1500 [PollResult.none_or_error] [] =
      consume_batch 1500 [] []
    ∧ consume_batch 1500 [PollResult.msg Option.none] [] =
        Except.error () :=
  ⟨(claim_C6_amended 1500 [] []).1,
   (claim_C6_amended 1500 [] []).2 (by decide)⟩

/-- C7 counterexample: a same-day second run that passes no records does
not replace the gold partition with its own (empty) passed set — the
earlier run's gold content survives, so "the gold partition contains
exactly the passed records of this run only" fails for that run. -/
theorem claim_C7_counterexample :
    storeGet "D"
      ((write_outputs [] [mkFailed detectEn profNone (prepRow recShort, true)]
        "T2" "D"
        (write_outputs [prepRow recGood] [] "T1" "D" emptyStore).1).1).gold =
      Option.some [prepRow recGood]
    ∧ [prepRow recGood] ≠ ([] : List VRecord) :=
  ⟨by decide, by decide⟩

/-- C7 amended: a run with at least one passed record rewrites the gold
partition for the current UTC date to exactly this run's passed records,
replacing (not accumulating) any earlier same-day content; a run with no
passed records writes no gold file and leaves the same-day gold partition
unchanged. -/
theorem claim_C7_amended (passed : List VRecord) (failed : List FRecord)
    (run_ts ds : String) (st : DataStore) :
    (passed ≠ [] →
      storeGet ds (write_outputs passed failed run_ts ds st).1.gold =
        Option.some passed)
    ∧ (passed = [] →
        (write_outputs passed failed run_ts ds st).1.gold = st.gold) := by
  constructor
  · intro hne
    have hne' : passed.isEmpty = false := by
      cases passed
      · exact absurd rfl hne
      · rfl
    simp only [write_outputs, hne', Bool.false_eq_true, if_false]
    exact storeGet_storePut _ _ _
  · intro hnil
    subst hnil
    simp [write_outputs]

/-- Witness for C7 (amended): one passed record replaces the existing
same-day gold content. -/
theorem claim_C7_amended_witness :
    storeGet "D"
      (write_outputs [prepRow recGood] [] "T" "D" emptyStore).1.gold =
      Option.some [prepRow recGood] :=
  (claim_C7_amended [prepRow recGood] [] "T" "D" emptyStore).1 (by decide)

/-- C8: a run whose intake yields an empty batch writes `EMPTY` markers in
the bronze, silver and rejects partitions, leaves gold untouched (no gold
file for the day is written), and appends a manifest entry with
`in = passed = rejected = 0` and an empty reasons mapping. -/
theorem claim_C8 (detect : String → Except Unit String) (prof : String → Bool)
    (polls : List PollResult) (run_ts ds : String) (st : DataStore)
    (h : consume_batch 1500 polls [] = Except.ok []) :
    ∃ st' entry, dq_run detect prof polls run_ts ds st =
        Except.ok (st', entry)
    ∧ storeGet run_ts st'.bronze = Option.some PartitionContent.empty_marker
    ∧ storeGet run_ts st'.silver = Option.some PartitionContent.empty_marker
    ∧ storeGet run_ts st'.rejects = Option.some PartitionContent.empty_marker
    ∧ st'.gold = st.gold
    ∧ st'.manifest = st.manifest ++ [entry]
    ∧ entry.in_ = 0 ∧ entry.passed = 0 ∧ entry.rejected = 0
    ∧ entry.reasons = [] := by
  simp only [dq_run, h]
  refine ⟨_, _, rfl, ?_, ?_, ?_, ?_, ?_, ?_, ?_, ?_, ?_⟩ <;>
    simp [write_bronze, write_outputs, append_manifest, validate_df,
      storeGet_storePut]

/-- Witness for C8: a poll stream holding one transport-level error. -/
theorem claim_C8_witness :
    ∃ st' entry, dq_run detectEn profNone [PollResult.none_or_error]
        "T" "D" emptyStore = Except.ok (st', entry)
    ∧ storeGet "T" st'.bronze = Option.some PartitionContent.empty_marker
    ∧ storeGet "T" st'.silver = Option.some PartitionContent.empty_marker
    ∧ storeGet "T" st'.rejects = Option.some PartitionContent.empty_marker
    ∧ st'.gold = emptyStore.gold
    ∧ st'.manifest = emptyStore.manifest ++ [entry]
    ∧ entry.in_ = 0 ∧ entry.passed = 0 ∧ entry.rejected = 0
    ∧ entry.reasons = [] :=
  claim_C8 detectEn profNone [PollResult.none_or_error] "T" "D" emptyStore rfl

end DQPipeline
